import Mathlib

/-!
Verification of the task-management backend (multi-tenant task CRUD with a
task lifecycle, per-employee status tracking, buckets, overdue sweep and
super-admin impersonation).

The definitions below are a shallow embedding of the JavaScript source:
* `src/src/models/Task.js` (schema enums and the pre-save hook),
* `src/src/controllers/taskController.js` (lifecycle actions),
* `src/src/services/task.service.js` (task CRUD with scoping),
* `src/src/services/cronJobs.js` (overdue sweep),
* `src/src/services/bucket.service.js` and `src/src/models/Bucket.js`,
* the auth controller (`impersonateOrganization`) and `src/src/models/AuditLog.js`.

Dates are modelled as integer millisecond timestamps, Mongo object ids as
naturals, and the database as an explicit list of documents.
-/

namespace TaskMgmt

/-- Task-level status enum of `taskSchema.status` in `Task.js`:
`['PENDING', 'ACCEPTED', 'IN_PROGRESS', 'SUBMITTED', 'COMPLETED', 'REJECTED', 'OVERDUE']`. -/
inductive TaskStatus
  | PENDING
  | ACCEPTED
  | IN_PROGRESS
  | SUBMITTED
  | COMPLETED
  | REJECTED
  | OVERDUE
deriving DecidableEq, Repr

/-- Per-employee status enum of `taskSchema.employeeStatus.status` in `Task.js`:
`['PENDING', 'ACCEPTED', 'IN_PROGRESS', 'SUBMITTED', 'COMPLETED', 'REJECTED']`. -/
inductive EmpStatus
  | PENDING
  | ACCEPTED
  | IN_PROGRESS
  | SUBMITTED
  | COMPLETED
  | REJECTED
deriving DecidableEq, Repr

/-- The string list of the task-level `status` enum, as written in the schema. -/
def taskStatusEnumValues : List String :=
  ["PENDING", "ACCEPTED", "IN_PROGRESS", "SUBMITTED", "COMPLETED", "REJECTED", "OVERDUE"]

/-- The string list of the `employeeStatus.status` enum, as written in the schema. -/
def employeeStatusEnumValues : List String :=
  ["PENDING", "ACCEPTED", "IN_PROGRESS", "SUBMITTED", "COMPLETED", "REJECTED"]

/-- Schema name of a task-level status value. -/
def TaskStatus.toName : TaskStatus → String
  | .PENDING => "PENDING"
  | .ACCEPTED => "ACCEPTED"
  | .IN_PROGRESS => "IN_PROGRESS"
  | .SUBMITTED => "SUBMITTED"
  | .COMPLETED => "COMPLETED"
  | .REJECTED => "REJECTED"
  | .OVERDUE => "OVERDUE"

/-- Schema name of a per-employee status value. -/
def EmpStatus.toName : EmpStatus → String
  | .PENDING => "PENDING"
  | .ACCEPTED => "ACCEPTED"
  | .IN_PROGRESS => "IN_PROGRESS"
  | .SUBMITTED => "SUBMITTED"
  | .COMPLETED => "COMPLETED"
  | .REJECTED => "REJECTED"

/-- One entry of a task's `employeeStatus` array (`Task.js`). -/
structure EmployeeStatusEntry where
  employeeId : Nat
  status : EmpStatus := .PENDING
  acceptedAt : Option Int := none
  startedAt : Option Int := none
  submittedAt : Option Int := none
  completedAt : Option Int := none
  submissionNote : Option String := none
deriving DecidableEq, Repr

/-- A task document (`taskSchema` in `Task.js`), restricted to the fields the
claims are about.  `myStatus` models the ad-hoc `task._doc.myStatus` field the
task service attaches for employee callers; it is not persisted. -/
structure Task where
  id : Nat
  organizationId : Nat
  title : String := ""
  description : String := ""
  priority : String := "MEDIUM"
  status : TaskStatus := .PENDING
  employeeStatus : List EmployeeStatusEntry := []
  dueDate : Option Int := none
  assignedTo : List Nat := []
  createdBy : Nat := 0
  isDeleted : Bool := false
  acceptedAt : Option Int := none
  startedAt : Option Int := none
  submittedAt : Option Int := none
  completedAt : Option Int := none
  timeSpentMinutes : Int := 0
  submissionNote : String := ""
  adminFeedback : String := ""
  myStatus : Option EmpStatus := none
deriving DecidableEq, Repr

/-- `Math.round(timeDiff / (1000 * 60))` of the pre-save hook: the elapsed
milliseconds converted to minutes and rounded (JavaScript `Math.round x`
is `⌊x + 1/2⌋`). -/
def roundMinutes (timeDiff : Int) : Int :=
  Int.fdiv (2 * timeDiff + 60000) 120000

/-- `this.assignedTo.map(empId => ({ employeeId: empId, status: 'PENDING' }))`
in the pre-save hook of `Task.js`. -/
def initialEmployeeStatus (assignedTo : List Nat) : List EmployeeStatusEntry :=
  assignedTo.map (fun empId => { employeeId := empId, status := .PENDING })

/-- Pre-save hook, first block: rebuild `employeeStatus` when the document is
new or `assignedTo` was modified. -/
def hookInitEmployeeStatus (isNew modifiedAssignedTo : Bool) (t : Task) : Task :=
  if isNew || modifiedAssignedTo then
    { t with employeeStatus := initialEmployeeStatus t.assignedTo }
  else t

/-- Pre-save hook, `COMPLETED` block: stamp `completedAt` and, when started,
recompute `timeSpentMinutes`. -/
def hookCompleted (modifiedStatus : Bool) (now : Int) (t : Task) : Task :=
  if modifiedStatus ∧ t.status = TaskStatus.COMPLETED ∧ t.completedAt = none then
    { t with
      completedAt := some now
      timeSpentMinutes :=
        match t.startedAt with
        | some s => roundMinutes (now - s)
        | none => t.timeSpentMinutes }
  else t

/-- Pre-save hook, `IN_PROGRESS` block: stamp `startedAt` when unset. -/
def hookInProgress (modifiedStatus : Bool) (now : Int) (t : Task) : Task :=
  if modifiedStatus ∧ t.status = TaskStatus.IN_PROGRESS ∧ t.startedAt = none then
    { t with startedAt := some now }
  else t

/-- Pre-save hook, `ACCEPTED` block: stamp `acceptedAt` when unset. -/
def hookAccepted (modifiedStatus : Bool) (now : Int) (t : Task) : Task :=
  if modifiedStatus ∧ t.status = TaskStatus.ACCEPTED ∧ t.acceptedAt = none then
    { t with acceptedAt := some now }
  else t

/-- Pre-save hook, `SUBMITTED` block: stamp `submittedAt` and, when started,
recompute `timeSpentMinutes`. -/
def hookSubmitted (modifiedStatus : Bool) (now : Int) (t : Task) : Task :=
  if modifiedStatus ∧ t.status = TaskStatus.SUBMITTED ∧ t.submittedAt = none then
    { t with
      submittedAt := some now
      timeSpentMinutes :=
        match t.startedAt with
        | some s => roundMinutes (now - s)
        | none => t.timeSpentMinutes }
  else t

/-- The `taskSchema.pre('save', ...)` hook of `Task.js` (the variant with
per-employee tracking): the five guarded blocks run in source order.
`isNew` models `this.isNew`, the other two flags model
`this.isModified('assignedTo')` and `this.isModified('status')`. -/
def presaveHook (t : Task) (isNew modifiedAssignedTo modifiedStatus : Bool)
    (now : Int) : Task :=
  hookSubmitted modifiedStatus now
    (hookAccepted modifiedStatus now
      (hookInProgress modifiedStatus now
        (hookCompleted modifiedStatus now
          (hookInitEmployeeStatus isNew modifiedAssignedTo t))))

/-- User role. -/
inductive Role
  | EMPLOYEE
  | ADMIN
  | SUPER_ADMIN
deriving DecidableEq, Repr

/-- The authenticated request context (`req.user`, `req.organizationId`,
`req.isImpersonating`). -/
structure Caller where
  userId : Nat
  organizationId : Nat
  role : Role
  isImpersonating : Bool := false
deriving DecidableEq, Repr

/-- `hasAdminPrivileges` of `taskController.js` / `task.service.js`:
`ADMIN`, `SUPER_ADMIN`, or a `SUPER_ADMIN` who is impersonating. -/
def hasAdminPrivileges (c : Caller) : Bool :=
  c.role == Role.ADMIN ||
  c.role == Role.SUPER_ADMIN ||
  (c.isImpersonating && c.role == Role.SUPER_ADMIN)

/-- `AppError(message, statusCode)` of `utils/appError.js`. -/
structure AppError where
  message : String
  statusCode : Nat
deriving DecidableEq, Repr

/-- The `Task.findOne` filter shared by the single-task operations:
`_id`, `organizationId`, `isDeleted: false`, and optionally
`assignedTo: { $in: [userId] }`. -/
def matchesTaskFilter (taskId orgId : Nat) (assigneeFilter : Option Nat)
    (t : Task) : Bool :=
  t.id == taskId && t.organizationId == orgId && !t.isDeleted &&
    (match assigneeFilter with
     | some u => t.assignedTo.contains u
     | none => true)

/-- `Task.findOne({...})` over the modelled database. -/
def findOneTask (db : List Task) (taskId orgId : Nat)
    (assigneeFilter : Option Nat) : Option Task :=
  db.find? (matchesTaskFilter taskId orgId assigneeFilter)

/-- `await task.save()`: replace the stored document with the saved one. -/
def saveTask (db : List Task) (t : Task) : List Task :=
  db.map (fun u => if u.id = t.id then t else u)

/-- The database after an action: unchanged on an error (the handler returns
through `next(err)` before any write), the saved database on success. -/
def applyResult (db : List Task) : Except AppError (Task × List Task) → List Task
  | .error _ => db
  | .ok (_, db') => db'

/-- `acceptTask` of `taskController.js`: find the caller's assigned task in
the caller's organization; only a `PENDING` task can be accepted. -/
def acceptTask (db : List Task) (c : Caller) (taskId : Nat) (now : Int) :
    Except AppError (Task × List Task) :=
  match findOneTask db taskId c.organizationId (some c.userId) with
  | none => .error ⟨"Task not found.", 404⟩
  | some task =>
    if task.status ≠ TaskStatus.PENDING then
      .error ⟨"Task can only be accepted when pending.", 400⟩
    else
      let saved := presaveHook { task with status := TaskStatus.ACCEPTED }
        false false true now
      .ok (saved, saveTask db saved)

/-- `startTask` of `taskController.js`: allowed from `ACCEPTED` or `PENDING`;
sets the status to `IN_PROGRESS` and `startedAt` to the current time. -/
def startTask (db : List Task) (c : Caller) (taskId : Nat) (now : Int) :
    Except AppError (Task × List Task) :=
  match findOneTask db taskId c.organizationId (some c.userId) with
  | none => .error ⟨"Task not found.", 404⟩
  | some task =>
    if task.status ≠ TaskStatus.ACCEPTED ∧ task.status ≠ TaskStatus.PENDING then
      .error ⟨"Task must be accepted before starting.", 400⟩
    else
      let saved := presaveHook
        { task with status := TaskStatus.IN_PROGRESS, startedAt := some now }
        false false true now
      .ok (saved, saveTask db saved)

/-- `submitTask` of `taskController.js`: only an `IN_PROGRESS` task can be
submitted; stores the submission note. -/
def submitTask (db : List Task) (c : Caller) (taskId : Nat)
    (submissionNote : Option String) (now : Int) :
    Except AppError (Task × List Task) :=
  match findOneTask db taskId c.organizationId (some c.userId) with
  | none => .error ⟨"Task not found.", 404⟩
  | some task =>
    if task.status ≠ TaskStatus.IN_PROGRESS then
      .error ⟨"Task must be in progress to submit.", 400⟩
    else
      let saved := presaveHook
        { task with
            status := TaskStatus.SUBMITTED
            submissionNote := submissionNote.getD "" }
        false false true now
      .ok (saved, saveTask db saved)

/-- `completeTask` of `taskController.js` (admin route, no assignee filter):
only a `SUBMITTED` task can be completed; stores the admin feedback. -/
def completeTask (db : List Task) (c : Caller) (taskId : Nat)
    (adminFeedback : Option String) (now : Int) :
    Except AppError (Task × List Task) :=
  match findOneTask db taskId c.organizationId none with
  | none => .error ⟨"Task not found.", 404⟩
  | some task =>
    if task.status ≠ TaskStatus.SUBMITTED then
      .error ⟨"Only submitted tasks can be completed.", 400⟩
    else
      let saved := presaveHook
        { task with
            status := TaskStatus.COMPLETED
            adminFeedback := adminFeedback.getD "" }
        false false true now
      .ok (saved, saveTask db saved)

/-- `rejectTask` of `taskController.js` (admin route, no assignee filter):
only a `SUBMITTED` task can be rejected; stores the admin feedback. -/
def rejectTask (db : List Task) (c : Caller) (taskId : Nat)
    (adminFeedback : Option String) (now : Int) :
    Except AppError (Task × List Task) :=
  match findOneTask db taskId c.organizationId none with
  | none => .error ⟨"Task not found.", 404⟩
  | some task =>
    if task.status ≠ TaskStatus.SUBMITTED then
      .error ⟨"Only submitted tasks can be rejected.", 400⟩
    else
      let saved := presaveHook
        { task with
            status := TaskStatus.REJECTED
            adminFeedback := adminFeedback.getD "" }
        false false true now
      .ok (saved, saveTask db saved)

/-- A user document, restricted to the fields the task service consults. -/
structure User where
  id : Nat
  organizationId : Option Nat
  role : Role := .EMPLOYEE
  isActive : Bool := true
deriving DecidableEq, Repr

/-- ASCII lower-casing of one character, for the case-insensitive regex
matches. -/
def lowerChar (ch : Char) : Char :=
  if ch.isUpper then Char.ofNat (ch.toNat + 32) else ch

/-- ASCII lower-casing of a string, as a character list. -/
def lowerStr (s : String) : List Char :=
  s.data.map lowerChar

/-- Case-insensitive substring match: the effect of
`{ $regex: search, $options: 'i' }` for a pattern without regex
metacharacters. -/
def containsCI (hay pat : String) : Bool :=
  decide (lowerStr pat <:+: lowerStr hay)

/-- The optional query filters of `getTasks` (`req.query`). -/
structure TaskFilters where
  status : Option TaskStatus := none
  priority : Option String := none
  assignedTo : Option Nat := none
  search : Option String := none
deriving Repr

/-- The `Task.find` filter built by `taskService.getTasks`: organization and
soft-delete scoping, the optional query filters, and — for callers without
admin privileges — `assignedTo: { $in: [user._id] }` overriding any
requested assignee filter. -/
def matchesListFilter (c : Caller) (filters : TaskFilters) (t : Task) : Bool :=
  t.organizationId == c.organizationId && !t.isDeleted &&
  (match filters.status with | some s => t.status == s | none => true) &&
  (match filters.priority with | some p => t.priority == p | none => true) &&
  (match filters.search with
   | some s => containsCI t.title s || containsCI t.description s
   | none => true) &&
  (if hasAdminPrivileges c then
     match filters.assignedTo with
     | some u => t.assignedTo.contains u
     | none => true
   else t.assignedTo.contains c.userId)

/-- The per-task post-processing `taskService.getTasks` / `getTaskById`
apply for callers without admin privileges: `assignedTo` is filtered down to
the caller, and the caller's entry of `employeeStatus`, when present, is
exposed as `myStatus`. -/
def employeeView (userId : Nat) (t : Task) : Task :=
  let t' := { t with assignedTo := t.assignedTo.filter (fun u => u == userId) }
  match t'.employeeStatus.find? (fun es => es.employeeId == userId) with
  | some es => { t' with myStatus := some es.status }
  | none => t'

/-- `taskService.getTasks`: filtered find, then the employee view for
callers without admin privileges. -/
def getTasks (db : List Task) (c : Caller) (filters : TaskFilters) : List Task :=
  let tasks := db.filter (matchesListFilter c filters)
  if hasAdminPrivileges c then tasks
  else tasks.map (employeeView c.userId)

/-- `taskService.getTaskById`: the single-task filter (with the assignee
clause for callers without admin privileges), erroring with
`'Task not found.'` when nothing matches. -/
def getTaskById (db : List Task) (c : Caller) (taskId : Nat) :
    Except AppError Task :=
  let assigneeFilter := if hasAdminPrivileges c then none else some c.userId
  match findOneTask db taskId c.organizationId assigneeFilter with
  | none => .error ⟨"Task not found.", 404⟩
  | some t =>
    .ok (if hasAdminPrivileges c then t else employeeView c.userId t)

/-- The updatable fields of `taskService.updateTask`, restricted to the
fields of the modelled `Task`; `none` models an absent (`undefined`) field. -/
structure TaskUpdates where
  title : Option String := none
  description : Option String := none
  priority : Option String := none
  dueDate : Option (Option Int) := none
  status : Option TaskStatus := none
  assignedTo : Option (List Nat) := none
deriving Repr

/-- `taskService.updateTask`: scoped lookup (assignee-filtered for callers
without admin privileges), admin-only field updates with validation of the
new assignees, then save through the pre-save hook.  The modification flags
passed to the hook reflect mongoose's deep-equality dirty tracking. -/
def updateTask (db : List Task) (users : List User) (c : Caller)
    (taskId : Nat) (updates : TaskUpdates) (now : Int) :
    Except AppError (Task × List Task) :=
  let assigneeFilter := if hasAdminPrivileges c then none else some c.userId
  match findOneTask db taskId c.organizationId assigneeFilter with
  | none => .error ⟨"Task not found.", 404⟩
  | some task =>
    if hasAdminPrivileges c then
      let t1 := match updates.title with
        | some v => { task with title := v } | none => task
      let t2 := match updates.description with
        | some v => { t1 with description := v } | none => t1
      let t3 := match updates.priority with
        | some v => { t2 with priority := v } | none => t2
      let t4 := match updates.dueDate with
        | some v => { t3 with dueDate := v } | none => t3
      let t5 := match updates.status with
        | some v => { t4 with status := v } | none => t4
      match updates.assignedTo with
      | some arr =>
        if arr.all (fun uid => users.any (fun u =>
            u.id == uid && u.organizationId == some c.organizationId && u.isActive)) then
          let t6 := { t5 with assignedTo := arr }
          let saved := presaveHook t6 false
            (decide (t6.assignedTo ≠ task.assignedTo))
            (decide (t6.status ≠ task.status)) now
          .ok (saved, saveTask db saved)
        else .error ⟨"One or more assigned users not found in organization.", 404⟩
      | none =>
        let saved := presaveHook t5 false false
          (decide (t5.status ≠ task.status)) now
        .ok (saved, saveTask db saved)
    else
      let saved := presaveHook task false false false now
      .ok (saved, saveTask db saved)

/-- `deleteTask` of `taskController.js`: scoped lookup by id and
organization, then soft delete. -/
def deleteTask (db : List Task) (c : Caller) (taskId : Nat) (now : Int) :
    Except AppError (Task × List Task) :=
  match findOneTask db taskId c.organizationId none with
  | none => .error ⟨"Task not found.", 404⟩
  | some task =>
    let saved := presaveHook { task with isDeleted := true } false false false now
    .ok (saved, saveTask db saved)

/-- The `Task.find` filter of the cron sweep in `cronJobs.js`:
`dueDate: { $lt: now }` (a `null` due date never matches a date-typed
comparison), `status` among the four live statuses, not soft-deleted. -/
def overdueCandidate (now : Int) (t : Task) : Bool :=
  (match t.dueDate with | some d => decide (d < now) | none => false) &&
  (t.status == TaskStatus.PENDING || t.status == TaskStatus.ACCEPTED ||
   t.status == TaskStatus.IN_PROGRESS || t.status == TaskStatus.SUBMITTED) &&
  !t.isDeleted

/-- One run of the `checkOverdueTasks` cron body: every matching task gets
`task.status = 'OVERDUE'` and is saved (through the pre-save hook); every
other task is untouched. -/
def checkOverdueSweep (db : List Task) (now : Int) : List Task :=
  db.map (fun t =>
    if overdueCandidate now t then
      presaveHook { t with status := TaskStatus.OVERDUE } false false true now
    else t)

/-- A bucket document (`bucketSchema` in `Bucket.js`). -/
structure Bucket where
  id : Nat
  organizationId : Nat
  name : String
  createdBy : Nat := 0
  isDeleted : Bool := false
deriving DecidableEq, Repr

/-- `bucketService.getBuckets`: the non-deleted buckets of the
organization. -/
def getBuckets (db : List Bucket) (organizationId : Nat) : List Bucket :=
  db.filter (fun b => b.organizationId == organizationId && !b.isDeleted)

/-- The duplicate-name check of `bucketService.createBucket`:
`name: { $regex: new RegExp('^name$', 'i') }` — case-insensitive
whole-name equality — restricted to non-deleted buckets of the same
organization. -/
def duplicateBucketName (db : List Bucket) (organizationId : Nat)
    (name : String) : Bool :=
  (db.find? (fun b =>
    b.organizationId == organizationId &&
    lowerStr b.name == lowerStr name &&
    !b.isDeleted)).isSome

/-- `bucketService.createBucket`: reject a duplicate (case-insensitive) name
within the organization, otherwise insert the new bucket. -/
def createBucket (db : List Bucket) (organizationId : Nat) (newId : Nat)
    (name : String) (createdBy : Nat) : Except AppError (Bucket × List Bucket) :=
  if duplicateBucketName db organizationId name then
    .error ⟨"Bucket with this name already exists.", 400⟩
  else
    let bucket : Bucket :=
      { id := newId, organizationId := organizationId, name := name
        createdBy := createdBy }
    .ok (bucket, db ++ [bucket])

/-- An organization document, restricted to what impersonation needs. -/
structure Organization where
  id : Nat
  name : String := ""
  slug : String := ""
  isActive : Bool := true
deriving DecidableEq, Repr

/-- The `action` enum of `auditLogSchema`, restricted to the impersonation
actions the claims are about. -/
inductive AuditAction
  | IMPERSONATION_START
  | IMPERSONATION_END
deriving DecidableEq, Repr

/-- An audit-log record (`AuditLog.js`), restricted to the fields
`impersonateOrganization` writes. -/
structure AuditLogEntry where
  userId : Nat
  action : AuditAction
  targetOrganizationId : Option Nat := none
deriving DecidableEq, Repr

/-- The payload of `generateImpersonationToken` in `utils/jwt.js`:
`{ superAdminId, targetOrganizationId, isImpersonating: true }`. -/
structure ImpersonationToken where
  superAdminId : Nat
  targetOrganizationId : Nat
  isImpersonating : Bool
deriving DecidableEq, Repr

/-- `generateImpersonationToken(superAdminId, targetOrganizationId)`. -/
def generateImpersonationToken (superAdminId targetOrganizationId : Nat) :
    ImpersonationToken :=
  { superAdminId := superAdminId
    targetOrganizationId := targetOrganizationId
    isImpersonating := true }

/-- `impersonateOrganization` of the auth controller: only a `SUPER_ADMIN`
may impersonate (403 otherwise); the target organization must exist (404
otherwise); on success an `IMPERSONATION_START` audit record is appended and
an impersonation token scoped to the organization is issued. -/
def impersonateOrganization (orgs : List Organization)
    (auditLog : List AuditLogEntry) (c : Caller) (organizationId : Nat) :
    Except AppError (List AuditLogEntry × ImpersonationToken × Organization) :=
  if c.role ≠ Role.SUPER_ADMIN then
    .error ⟨"Only super admin can impersonate organizations.", 403⟩
  else
    match orgs.find? (fun o => o.id == organizationId) with
    | none => .error ⟨"Organization not found.", 404⟩
    | some org =>
      let entry : AuditLogEntry :=
        { userId := c.userId
          action := .IMPERSONATION_START
          targetOrganizationId := some org.id }
      .ok (auditLog ++ [entry], generateImpersonationToken c.userId org.id, org)

/-! ### Helper lemmas about the pre-save hook -/

theorem hookInitES_status (a b : Bool) (t : Task) :
    (hookInitEmployeeStatus a b t).status = t.status := by
  unfold hookInitEmployeeStatus; split <;> rfl

theorem hookCompleted_status (m : Bool) (now : Int) (t : Task) :
    (hookCompleted m now t).status = t.status := by
  unfold hookCompleted; split <;> rfl

theorem hookInProgress_status (m : Bool) (now : Int) (t : Task) :
    (hookInProgress m now t).status = t.status := by
  unfold hookInProgress; split <;> rfl

theorem hookAccepted_status (m : Bool) (now : Int) (t : Task) :
    (hookAccepted m now t).status = t.status := by
  unfold hookAccepted; split <;> rfl

theorem hookSubmitted_status (m : Bool) (now : Int) (t : Task) :
    (hookSubmitted m now t).status = t.status := by
  unfold hookSubmitted; split <;> rfl

theorem presaveHook_status (t : Task) (a b m : Bool) (now : Int) :
    (presaveHook t a b m now).status = t.status := by
  simp only [presaveHook, hookSubmitted_status, hookAccepted_status,
    hookInProgress_status, hookCompleted_status, hookInitES_status]

theorem hookInitES_id (a b : Bool) (t : Task) :
    (hookInitEmployeeStatus a b t).id = t.id := by
  unfold hookInitEmployeeStatus; split <;> rfl

theorem hookCompleted_id (m : Bool) (now : Int) (t : Task) :
    (hookCompleted m now t).id = t.id := by
  unfold hookCompleted; split <;> rfl

theorem hookInProgress_id (m : Bool) (now : Int) (t : Task) :
    (hookInProgress m now t).id = t.id := by
  unfold hookInProgress; split <;> rfl

theorem hookAccepted_id (m : Bool) (now : Int) (t : Task) :
    (hookAccepted m now t).id = t.id := by
  unfold hookAccepted; split <;> rfl

theorem hookSubmitted_id (m : Bool) (now : Int) (t : Task) :
    (hookSubmitted m now t).id = t.id := by
  unfold hookSubmitted; split <;> rfl

theorem presaveHook_id (t : Task) (a b m : Bool) (now : Int) :
    (presaveHook t a b m now).id = t.id := by
  simp only [presaveHook, hookSubmitted_id, hookAccepted_id,
    hookInProgress_id, hookCompleted_id, hookInitES_id]

theorem hookInitES_organizationId (a b : Bool) (t : Task) :
    (hookInitEmployeeStatus a b t).organizationId = t.organizationId := by
  unfold hookInitEmployeeStatus; split <;> rfl

theorem hookCompleted_organizationId (m : Bool) (now : Int) (t : Task) :
    (hookCompleted m now t).organizationId = t.organizationId := by
  unfold hookCompleted; split <;> rfl

theorem hookInProgress_organizationId (m : Bool) (now : Int) (t : Task) :
    (hookInProgress m now t).organizationId = t.organizationId := by
  unfold hookInProgress; split <;> rfl

theorem hookAccepted_organizationId (m : Bool) (now : Int) (t : Task) :
    (hookAccepted m now t).organizationId = t.organizationId := by
  unfold hookAccepted; split <;> rfl

theorem hookSubmitted_organizationId (m : Bool) (now : Int) (t : Task) :
    (hookSubmitted m now t).organizationId = t.organizationId := by
  unfold hookSubmitted; split <;> rfl

theorem presaveHook_organizationId (t : Task) (a b m : Bool) (now : Int) :
    (presaveHook t a b m now).organizationId = t.organizationId := by
  simp only [presaveHook, hookSubmitted_organizationId, hookAccepted_organizationId,
    hookInProgress_organizationId, hookCompleted_organizationId,
    hookInitES_organizationId]

theorem hookInitES_assignedTo (a b : Bool) (t : Task) :
    (hookInitEmployeeStatus a b t).assignedTo = t.assignedTo := by
  unfold hookInitEmployeeStatus; split <;> rfl

theorem hookCompleted_assignedTo (m : Bool) (now : Int) (t : Task) :
    (hookCompleted m now t).assignedTo = t.assignedTo := by
  unfold hookCompleted; split <;> rfl

theorem hookInProgress_assignedTo (m : Bool) (now : Int) (t : Task) :
    (hookInProgress m now t).assignedTo = t.assignedTo := by
  unfold hookInProgress; split <;> rfl

theorem hookAccepted_assignedTo (m : Bool) (now : Int) (t : Task) :
    (hookAccepted m now t).assignedTo = t.assignedTo := by
  unfold hookAccepted; split <;> rfl

theorem hookSubmitted_assignedTo (m : Bool) (now : Int) (t : Task) :
    (hookSubmitted m now t).assignedTo = t.assignedTo := by
  unfold hookSubmitted; split <;> rfl

theorem presaveHook_assignedTo (t : Task) (a b m : Bool) (now : Int) :
    (presaveHook t a b m now).assignedTo = t.assignedTo := by
  simp only [presaveHook, hookSubmitted_assignedTo, hookAccepted_assignedTo,
    hookInProgress_assignedTo, hookCompleted_assignedTo, hookInitES_assignedTo]

theorem hookCompleted_employeeStatus (m : Bool) (now : Int) (t : Task) :
    (hookCompleted m now t).employeeStatus = t.employeeStatus := by
  unfold hookCompleted; split <;> rfl

theorem hookInProgress_employeeStatus (m : Bool) (now : Int) (t : Task) :
    (hookInProgress m now t).employeeStatus = t.employeeStatus := by
  unfold hookInProgress; split <;> rfl

theorem hookAccepted_employeeStatus (m : Bool) (now : Int) (t : Task) :
    (hookAccepted m now t).employeeStatus = t.employeeStatus := by
  unfold hookAccepted; split <;> rfl

theorem hookSubmitted_employeeStatus (m : Bool) (now : Int) (t : Task) :
    (hookSubmitted m now t).employeeStatus = t.employeeStatus := by
  unfold hookSubmitted; split <;> rfl

theorem hookInitES_employeeStatus_of_flag (a b : Bool) (t : Task)
    (h : a = true ∨ b = true) :
    (hookInitEmployeeStatus a b t).employeeStatus =
      initialEmployeeStatus t.assignedTo := by
  have hcond : (a || b) = true := by rcases h with h | h <;> simp [h]
  unfold hookInitEmployeeStatus
  rw [if_pos hcond]

theorem presaveHook_employeeStatus_of_flag (t : Task) (a b m : Bool) (now : Int)
    (h : a = true ∨ b = true) :
    (presaveHook t a b m now).employeeStatus =
      initialEmployeeStatus t.assignedTo := by
  simp only [presaveHook, hookSubmitted_employeeStatus, hookAccepted_employeeStatus,
    hookInProgress_employeeStatus, hookCompleted_employeeStatus]
  exact hookInitES_employeeStatus_of_flag a b t h

theorem hookInitES_off (t : Task) : hookInitEmployeeStatus false false t = t := by
  unfold hookInitEmployeeStatus
  simp

theorem hookCompleted_of_ne (m : Bool) (now : Int) (t : Task)
    (h : t.status ≠ TaskStatus.COMPLETED) : hookCompleted m now t = t := by
  unfold hookCompleted
  rw [if_neg]
  exact fun hc => h hc.2.1

theorem hookInProgress_of_ne (m : Bool) (now : Int) (t : Task)
    (h : t.status ≠ TaskStatus.IN_PROGRESS) : hookInProgress m now t = t := by
  unfold hookInProgress
  rw [if_neg]
  exact fun hc => h hc.2.1

theorem hookAccepted_of_ne (m : Bool) (now : Int) (t : Task)
    (h : t.status ≠ TaskStatus.ACCEPTED) : hookAccepted m now t = t := by
  unfold hookAccepted
  rw [if_neg]
  exact fun hc => h hc.2.1

theorem hookSubmitted_of_ne (m : Bool) (now : Int) (t : Task)
    (h : t.status ≠ TaskStatus.SUBMITTED) : hookSubmitted m now t = t := by
  unfold hookSubmitted
  rw [if_neg]
  exact fun hc => h hc.2.1

theorem presaveHook_no_live_branch (t : Task) (m : Bool) (now : Int)
    (h1 : t.status ≠ TaskStatus.COMPLETED) (h2 : t.status ≠ TaskStatus.IN_PROGRESS)
    (h3 : t.status ≠ TaskStatus.ACCEPTED) (h4 : t.status ≠ TaskStatus.SUBMITTED) :
    presaveHook t false false m now = t := by
  unfold presaveHook
  rw [hookInitES_off, hookCompleted_of_ne m now t h1,
    hookInProgress_of_ne m now t h2, hookAccepted_of_ne m now t h3,
    hookSubmitted_of_ne m now t h4]

theorem hookInitES_startedAt (a b : Bool) (t : Task) :
    (hookInitEmployeeStatus a b t).startedAt = t.startedAt := by
  unfold hookInitEmployeeStatus; split <;> rfl

theorem hookCompleted_startedAt (m : Bool) (now : Int) (t : Task) :
    (hookCompleted m now t).startedAt = t.startedAt := by
  unfold hookCompleted; split <;> rfl

theorem hookAccepted_startedAt (m : Bool) (now : Int) (t : Task) :
    (hookAccepted m now t).startedAt = t.startedAt := by
  unfold hookAccepted; split <;> rfl

theorem hookSubmitted_startedAt (m : Bool) (now : Int) (t : Task) :
    (hookSubmitted m now t).startedAt = t.startedAt := by
  unfold hookSubmitted; split <;> rfl

theorem hookInProgress_startedAt_of_some (m : Bool) (now s : Int) (t : Task)
    (h : t.startedAt = some s) : (hookInProgress m now t).startedAt = some s := by
  unfold hookInProgress
  rw [if_neg]
  · exact h
  · exact fun hc => by rw [h] at hc; cases hc.2.2

theorem presaveHook_startedAt_of_some (t : Task) (a b m : Bool) (now s : Int)
    (h : t.startedAt = some s) :
    (presaveHook t a b m now).startedAt = some s := by
  unfold presaveHook
  rw [hookSubmitted_startedAt, hookAccepted_startedAt,
    hookInProgress_startedAt_of_some]
  rw [hookCompleted_startedAt, hookInitES_startedAt]
  exact h

/-- `findOneTask` finds nothing when every task with the requested id belongs
to another organization. -/
theorem findOneTask_eq_none_of_other_org (db : List Task) (tid org : Nat)
    (af : Option Nat) (h : ∀ t ∈ db, t.id = tid → t.organizationId ≠ org) :
    findOneTask db tid org af = none := by
  unfold findOneTask
  rw [List.find?_eq_none]
  intro t ht hmatch
  unfold matchesTaskFilter at hmatch
  simp only [Bool.and_eq_true, beq_iff_eq, Bool.not_eq_true'] at hmatch
  exact h t ht hmatch.1.1.1 hmatch.1.1.2

/-! ### C1 — status guards of the lifecycle actions -/

/-- C1: each lifecycle action is guarded by the task's current status:
`acceptTask` moves `PENDING` to `ACCEPTED`, `submitTask` moves `IN_PROGRESS`
to `SUBMITTED`, `completeTask` and `rejectTask` move `SUBMITTED` to
`COMPLETED` and `REJECTED`; from any other starting status the action
returns a 400 `AppError` and leaves the database unchanged. -/
theorem c1_lifecycle_status_guards (db : List Task) (c : Caller) (tid : Nat)
    (now : Int) (note fb : Option String) (task : Task) :
    (findOneTask db tid c.organizationId (some c.userId) = some task →
      (task.status = TaskStatus.PENDING →
        ∃ saved, acceptTask db c tid now = .ok (saved, saveTask db saved) ∧
          saved.status = TaskStatus.ACCEPTED) ∧
      (task.status ≠ TaskStatus.PENDING →
        acceptTask db c tid now =
          .error ⟨"Task can only be accepted when pending.", 400⟩ ∧
        applyResult db (acceptTask db c tid now) = db) ∧
      (task.status = TaskStatus.IN_PROGRESS →
        ∃ saved, submitTask db c tid note now = .ok (saved, saveTask db saved) ∧
          saved.status = TaskStatus.SUBMITTED) ∧
      (task.status ≠ TaskStatus.IN_PROGRESS →
        submitTask db c tid note now =
          .error ⟨"Task must be in progress to submit.", 400⟩ ∧
        applyResult db (submitTask db c tid note now) = db)) ∧
    (findOneTask db tid c.organizationId none = some task →
      (task.status = TaskStatus.SUBMITTED →
        (∃ saved, completeTask db c tid fb now = .ok (saved, saveTask db saved) ∧
          saved.status = TaskStatus.COMPLETED) ∧
        (∃ saved, rejectTask db c tid fb now = .ok (saved, saveTask db saved) ∧
          saved.status = TaskStatus.REJECTED)) ∧
      (task.status ≠ TaskStatus.SUBMITTED →
        completeTask db c tid fb now =
          .error ⟨"Only submitted tasks can be completed.", 400⟩ ∧
        rejectTask db c tid fb now =
          .error ⟨"Only submitted tasks can be rejected.", 400⟩ ∧
        applyResult db (completeTask db c tid fb now) = db ∧
        applyResult db (rejectTask db c tid fb now) = db)) := by
  constructor
  · intro hfind
    refine ⟨?_, ?_, ?_, ?_⟩
    · intro hs
      refine ⟨presaveHook { task with status := TaskStatus.ACCEPTED }
        false false true now, ?_, ?_⟩
      · simp [acceptTask, hfind, hs]
      · rw [presaveHook_status]
    · intro hs
      have he : acceptTask db c tid now =
          .error ⟨"Task can only be accepted when pending.", 400⟩ := by
        simp [acceptTask, hfind, hs]
      exact ⟨he, by rw [he]; rfl⟩
    · intro hs
      refine ⟨presaveHook
        { task with
            status := TaskStatus.SUBMITTED
            submissionNote := note.getD "" } false false true now, ?_, ?_⟩
      · simp [submitTask, hfind, hs]
      · rw [presaveHook_status]
    · intro hs
      have he : submitTask db c tid note now =
          .error ⟨"Task must be in progress to submit.", 400⟩ := by
        simp [submitTask, hfind, hs]
      exact ⟨he, by rw [he]; rfl⟩
  · intro hfind
    refine ⟨?_, ?_⟩
    · intro hs
      constructor
      · refine ⟨presaveHook
          { task with
              status := TaskStatus.COMPLETED
              adminFeedback := fb.getD "" } false false true now, ?_, ?_⟩
        · simp [completeTask, hfind, hs]
        · rw [presaveHook_status]
      · refine ⟨presaveHook
          { task with
              status := TaskStatus.REJECTED
              adminFeedback := fb.getD "" } false false true now, ?_, ?_⟩
        · simp [rejectTask, hfind, hs]
        · rw [presaveHook_status]
    · intro hs
      have he1 : completeTask db c tid fb now =
          .error ⟨"Only submitted tasks can be completed.", 400⟩ := by
        simp [completeTask, hfind, hs]
      have he2 : rejectTask db c tid fb now =
          .error ⟨"Only submitted tasks can be rejected.", 400⟩ := by
        simp [rejectTask, hfind, hs]
      exact ⟨he1, he2, by rw [he1]; rfl, by rw [he2]; rfl⟩

/-- A one-task sample database used by the concrete witnesses. -/
def sampleTask : Task :=
  { id := 1, organizationId := 10, assignedTo := [7], status := .PENDING }

/-- The sample assigned employee of organization 10. -/
def sampleCaller : Caller :=
  { userId := 7, organizationId := 10, role := .EMPLOYEE }

/-- Witness for C1 at a concrete one-task database. -/
theorem c1_lifecycle_status_guards_witness :
    (∃ saved, acceptTask [sampleTask] sampleCaller 1 0 =
        .ok (saved, saveTask [sampleTask] saved) ∧
      saved.status = TaskStatus.ACCEPTED) ∧
    completeTask [sampleTask] sampleCaller 1 none 0 =
      .error ⟨"Only submitted tasks can be completed.", 400⟩ := by
  have h := c1_lifecycle_status_guards [sampleTask] sampleCaller 1 0 none none
    sampleTask
  exact ⟨(h.1 rfl).1 rfl, ((h.2 rfl).2 (by decide)).1⟩

/-! ### C8 — startTask allows PENDING as well as ACCEPTED -/

/-- C8: `startTask` moves a task to `IN_PROGRESS` from either `PENDING` or
`ACCEPTED` (acceptance is not actually required), stamping `startedAt` with
the current time; from any other status it fails with the 400 error
`'Task must be accepted before starting.'`. -/
theorem c8_startTask_from_pending_or_accepted (db : List Task) (c : Caller)
    (tid : Nat) (now : Int) (task : Task)
    (hfind : findOneTask db tid c.organizationId (some c.userId) = some task) :
    (task.status = TaskStatus.PENDING ∨ task.status = TaskStatus.ACCEPTED →
      ∃ saved, startTask db c tid now = .ok (saved, saveTask db saved) ∧
        saved.status = TaskStatus.IN_PROGRESS ∧ saved.startedAt = some now) ∧
    (task.status ≠ TaskStatus.PENDING ∧ task.status ≠ TaskStatus.ACCEPTED →
      startTask db c tid now =
        .error ⟨"Task must be accepted before starting.", 400⟩ ∧
      applyResult db (startTask db c tid now) = db) := by
  constructor
  · intro hs
    refine ⟨presaveHook
      { task with status := TaskStatus.IN_PROGRESS, startedAt := some now }
      false false true now, ?_, ?_, ?_⟩
    · rcases hs with hs | hs <;> simp [startTask, hfind, hs]
    · rw [presaveHook_status]
    · exact presaveHook_startedAt_of_some _ _ _ _ _ _ rfl
  · intro hs
    have he : startTask db c tid now =
        .error ⟨"Task must be accepted before starting.", 400⟩ := by
      simp [startTask, hfind, hs.1, hs.2]
    exact ⟨he, by rw [he]; rfl⟩

/-- Witness for C8: a `PENDING` task (never accepted) is started directly. -/
theorem c8_startTask_from_pending_or_accepted_witness :
    ∃ saved, startTask [sampleTask] sampleCaller 1 99 =
        .ok (saved, saveTask [sampleTask] saved) ∧
      saved.status = TaskStatus.IN_PROGRESS ∧ saved.startedAt = some 99 := by
  have h := c8_startTask_from_pending_or_accepted [sampleTask] sampleCaller 1 99
    sampleTask rfl
  exact h.1 (Or.inl rfl)

/-! ### C2 — the status enums -/

/-- C2 counterexample: the per-employee `employeeStatus.status` enum of the
schema does not contain `OVERDUE`, so it is not the same seven-value set as
the task-level enum and `OVERDUE` is not a possible per-employee value. -/
theorem c2_overdue_not_per_employee :
    "OVERDUE" ∈ taskStatusEnumValues ∧
    "OVERDUE" ∉ employeeStatusEnumValues ∧
    (∀ e : EmpStatus, e.toName ≠ "OVERDUE") := by
  refine ⟨by decide, by decide, ?_⟩
  intro e
  cases e <;> decide

/-- C2 (amended): the task-level status is one of the seven schema values,
while each per-employee status entry draws from the six-value subset that
excludes `OVERDUE`. -/
theorem c2_status_enums :
    (∀ s : TaskStatus, s.toName ∈ taskStatusEnumValues) ∧
    (∀ e : EmpStatus, e.toName ∈ employeeStatusEnumValues) ∧
    taskStatusEnumValues = employeeStatusEnumValues ++ ["OVERDUE"] := by
  refine ⟨?_, ?_, by decide⟩
  · intro s; cases s <;> decide
  · intro e; cases e <;> decide

/-! ### C5 — the overdue sweep -/

/-- C5: one run of the cron sweep sets `status` to `OVERDUE` exactly for the
non-deleted tasks having a due date strictly before the current time and a
status in `{PENDING, ACCEPTED, IN_PROGRESS, SUBMITTED}`; every other task —
completed, rejected, already overdue, soft-deleted, or without a past due
date — is returned unchanged. -/
theorem c5_overdue_sweep (db : List Task) (now : Int) :
    checkOverdueSweep db now = db.map (fun t =>
      if overdueCandidate now t then { t with status := TaskStatus.OVERDUE }
      else t) ∧
    ∀ t : Task, overdueCandidate now t = true ↔
      ((∃ d, t.dueDate = some d ∧ d < now) ∧
       (t.status = TaskStatus.PENDING ∨ t.status = TaskStatus.ACCEPTED ∨
        t.status = TaskStatus.IN_PROGRESS ∨ t.status = TaskStatus.SUBMITTED) ∧
       t.isDeleted = false) := by
  constructor
  · unfold checkOverdueSweep
    apply List.map_congr_left
    intro t _
    by_cases h : overdueCandidate now t = true
    · rw [if_pos h, if_pos h]
      exact presaveHook_no_live_branch _ true now (by simp) (by simp)
        (by simp) (by simp)
    · rw [if_neg h, if_neg h]
  · intro t
    unfold overdueCandidate
    rcases hd : t.dueDate with _ | d <;>
      simp [hd, Bool.and_eq_true, Bool.or_eq_true, beq_iff_eq,
        Bool.not_eq_true', and_assoc, or_assoc]

/-! ### C6 — starting impersonation -/

/-- C6: `impersonateOrganization` rejects any caller who is not a
`SUPER_ADMIN` with a 403 error, rejects a missing target organization with a
404 error, and on success appends an `IMPERSONATION_START` audit record with
the super-admin's id and the target organization's id, and issues an
impersonation token scoped to that organization with `isImpersonating`
set. -/
theorem c6_impersonation (orgs : List Organization) (log : List AuditLogEntry)
    (c : Caller) (oid : Nat) :
    (c.role ≠ Role.SUPER_ADMIN →
      impersonateOrganization orgs log c oid =
        .error ⟨"Only super admin can impersonate organizations.", 403⟩) ∧
    (c.role = Role.SUPER_ADMIN → orgs.find? (fun o => o.id == oid) = none →
      impersonateOrganization orgs log c oid =
        .error ⟨"Organization not found.", 404⟩) ∧
    (∀ org, c.role = Role.SUPER_ADMIN →
      orgs.find? (fun o => o.id == oid) = some org →
      impersonateOrganization orgs log c oid =
        .ok (log ++ [{ userId := c.userId, action := .IMPERSONATION_START,
                       targetOrganizationId := some org.id }],
             { superAdminId := c.userId, targetOrganizationId := org.id,
               isImpersonating := true }, org)) := by
  refine ⟨?_, ?_, ?_⟩
  · intro h
    simp [impersonateOrganization, h]
  · intro h hfind
    simp [impersonateOrganization, h, hfind]
  · intro org h hfind
    simp [impersonateOrganization, h, hfind, generateImpersonationToken]

/-- The sample organization used by the impersonation witness. -/
def sampleOrg : Organization := { id := 10, name := "Acme", slug := "acme" }

/-- Witness for C6: an employee is rejected with 403; a super-admin
impersonating the existing organization 10 gets the audit record and a
scoped token. -/
theorem c6_impersonation_witness :
    impersonateOrganization [sampleOrg] [] sampleCaller 10 =
      .error ⟨"Only super admin can impersonate organizations.", 403⟩ ∧
    impersonateOrganization [sampleOrg] []
        { userId := 3, organizationId := 0, role := .SUPER_ADMIN } 10 =
      .ok ([{ userId := 3, action := .IMPERSONATION_START,
              targetOrganizationId := some 10 }],
           { superAdminId := 3, targetOrganizationId := 10,
             isImpersonating := true }, sampleOrg) := by
  constructor
  · exact (c6_impersonation [sampleOrg] [] sampleCaller 10).1 (by decide)
  · exact (c6_impersonation [sampleOrg] []
      { userId := 3, organizationId := 0, role := .SUPER_ADMIN } 10).2.2
      sampleOrg rfl rfl

/-! ### C7 — employeeStatus rebuild on save -/

/-- C7: whenever a task is saved while new or with a modified `assignedTo`
list, the pre-save hook rebuilds `employeeStatus` as exactly one fresh
`PENDING` entry per assigned employee, erasing any previously recorded
per-employee progress. -/
theorem c7_employeeStatus_rebuild (t : Task) (isNew modA modS : Bool)
    (now : Int) (h : isNew = true ∨ modA = true) :
    (presaveHook t isNew modA modS now).employeeStatus =
      t.assignedTo.map (fun empId =>
        { employeeId := empId, status := EmpStatus.PENDING }) :=
  presaveHook_employeeStatus_of_flag t isNew modA modS now h

/-- A per-employee entry with recorded progress, erased in the C7 witness. -/
def sampleProgressEntry : EmployeeStatusEntry :=
  { employeeId := 7, status := .SUBMITTED, submittedAt := some 5,
    submissionNote := some "done" }

/-- Witness for C7: saving with a modified assignee list `[7, 8]` replaces
the recorded progress of employee 7 by fresh `PENDING` entries. -/
theorem c7_employeeStatus_rebuild_witness :
    (presaveHook
      { sampleTask with employeeStatus := [sampleProgressEntry],
                        assignedTo := [7, 8] }
      false true false 0).employeeStatus =
    [{ employeeId := 7, status := EmpStatus.PENDING },
     { employeeId := 8, status := EmpStatus.PENDING }] := by
  rw [c7_employeeStatus_rebuild _ false true false 0 (Or.inr rfl)]
  decide

/-! ### C10 — time-tracking stamps of the pre-save hook -/

/-- C10: on a save that changes the status, the pre-save hook stamps the
matching unset timestamp with the current time; for `SUBMITTED` and
`COMPLETED` it additionally recomputes `timeSpentMinutes` as the elapsed
time from `startedAt` rounded to whole minutes, while for `ACCEPTED` and
`IN_PROGRESS` only the timestamp is stamped and `timeSpentMinutes` is
unchanged. -/
theorem c10_presave_time_tracking (t : Task) (now s : Int) :
    (t.status = TaskStatus.SUBMITTED → t.submittedAt = none →
      (t.startedAt = some s →
        presaveHook t false false true now =
          { t with submittedAt := some now,
                   timeSpentMinutes := roundMinutes (now - s) }) ∧
      (t.startedAt = none →
        presaveHook t false false true now =
          { t with submittedAt := some now })) ∧
    (t.status = TaskStatus.COMPLETED → t.completedAt = none →
      (t.startedAt = some s →
        presaveHook t false false true now =
          { t with completedAt := some now,
                   timeSpentMinutes := roundMinutes (now - s) }) ∧
      (t.startedAt = none →
        presaveHook t false false true now =
          { t with completedAt := some now })) ∧
    (t.status = TaskStatus.ACCEPTED → t.acceptedAt = none →
      presaveHook t false false true now = { t with acceptedAt := some now }) ∧
    (t.status = TaskStatus.IN_PROGRESS → t.startedAt = none →
      presaveHook t false false true now = { t with startedAt := some now }) := by
  refine ⟨?_, ?_, ?_, ?_⟩
  · intro hst hsub
    have h1 : t.status ≠ TaskStatus.COMPLETED := by rw [hst]; decide
    have h2 : t.status ≠ TaskStatus.IN_PROGRESS := by rw [hst]; decide
    have h3 : t.status ≠ TaskStatus.ACCEPTED := by rw [hst]; decide
    constructor <;> intro hstart <;>
      · unfold presaveHook
        rw [hookInitES_off, hookCompleted_of_ne _ _ _ h1,
          hookInProgress_of_ne _ _ _ h2, hookAccepted_of_ne _ _ _ h3]
        unfold hookSubmitted
        rw [if_pos ⟨rfl, hst, hsub⟩]
        simp [hstart]
  · intro hst hcomp
    constructor <;> intro hstart <;>
      · unfold presaveHook
        rw [hookInitES_off]
        unfold hookCompleted
        rw [if_pos ⟨rfl, hst, hcomp⟩]
        rw [hookInProgress_of_ne _ _ _ (by simp [hst]),
          hookAccepted_of_ne _ _ _ (by simp [hst]),
          hookSubmitted_of_ne _ _ _ (by simp [hst])]
        simp [hstart]
  · intro hst hacc
    unfold presaveHook
    rw [hookInitES_off, hookCompleted_of_ne _ _ _ (by rw [hst]; decide),
      hookInProgress_of_ne _ _ _ (by rw [hst]; decide)]
    unfold hookAccepted
    rw [if_pos ⟨rfl, hst, hacc⟩]
    rw [hookSubmitted_of_ne _ _ _ (by simp [hst])]
  · intro hst hstart
    unfold presaveHook
    rw [hookInitES_off, hookCompleted_of_ne _ _ _ (by rw [hst]; decide)]
    unfold hookInProgress
    rw [if_pos ⟨rfl, hst, hstart⟩]
    rw [hookAccepted_of_ne _ _ _ (by simp [hst]),
      hookSubmitted_of_ne _ _ _ (by simp [hst])]

/-- Witness for C10: a task submitted 90 seconds after it was started gets
`submittedAt` stamped and `timeSpentMinutes = 2` (1.5 minutes rounds up). -/
theorem c10_presave_time_tracking_witness :
    presaveHook
      { sampleTask with status := .SUBMITTED, startedAt := some 0 }
      false false true 90000 =
    { sampleTask with status := .SUBMITTED, startedAt := some 0,
                      submittedAt := some 90000, timeSpentMinutes := 2 } := by
  have h := ((c10_presave_time_tracking
    { sampleTask with status := .SUBMITTED, startedAt := some 0 }
    90000 0).1 rfl rfl).1 rfl
  rw [h]
  decide

/-! ### Helper lemmas for scoping and visibility -/

theorem employeeView_organizationId (u : Nat) (t : Task) :
    (employeeView u t).organizationId = t.organizationId := by
  unfold employeeView
  dsimp only
  split <;> rfl

theorem employeeView_assignedTo (u : Nat) (t : Task) :
    (employeeView u t).assignedTo = t.assignedTo.filter (fun v => v == u) := by
  unfold employeeView
  dsimp only
  split <;> rfl

theorem matchesListFilter_organizationId {c : Caller} {filters : TaskFilters}
    {t : Task} (h : matchesListFilter c filters t = true) :
    t.organizationId = c.organizationId := by
  simp only [matchesListFilter, Bool.and_eq_true, beq_iff_eq, and_assoc] at h
  exact h.1

theorem matchesListFilter_assigned {c : Caller} {filters : TaskFilters}
    {t : Task} (hadm : hasAdminPrivileges c = false)
    (h : matchesListFilter c filters t = true) : c.userId ∈ t.assignedTo := by
  simp only [matchesListFilter, hadm, Bool.and_eq_true, beq_iff_eq,
    and_assoc, if_false, Bool.false_eq_true] at h
  have := h.2.2.2.2.2
  rw [List.contains] at this
  exact List.elem_iff.mp this

theorem hasAdminPrivileges_eq_false {c : Caller} (h1 : c.role ≠ Role.ADMIN)
    (h2 : c.role ≠ Role.SUPER_ADMIN) : hasAdminPrivileges c = false := by
  simp [hasAdminPrivileges, h1, h2]

theorem hasAdminPrivileges_eq_true {c : Caller}
    (h : c.role = Role.ADMIN ∨ c.role = Role.SUPER_ADMIN) :
    hasAdminPrivileges c = true := by
  rcases h with h | h <;> simp [hasAdminPrivileges, h]

/-- `findOneTask` with the assignee clause finds nothing when every task with
the requested id is not assigned to the user. -/
theorem findOneTask_eq_none_of_not_assigned (db : List Task) (tid org u : Nat)
    (h : ∀ t ∈ db, t.id = tid → u ∉ t.assignedTo) :
    findOneTask db tid org (some u) = none := by
  unfold findOneTask
  rw [List.find?_eq_none]
  intro t ht hmatch
  simp only [matchesTaskFilter, Bool.and_eq_true, beq_iff_eq, and_assoc] at hmatch
  have hc := hmatch.2.2.2
  rw [List.contains] at hc
  exact h t ht hmatch.1 (List.elem_iff.mp hc)

/-! ### C3 — uniform organization scoping -/

/-- C3: every task operation carries the caller's organization in its query
filter: the task list only ever contains tasks of the caller's organization,
and when every task with the requested id belongs to a different
organization, each single-task operation fails with `'Task not found.'` and
leaves the database unchanged. -/
theorem c3_org_scoping (db : List Task) (users : List User) (c : Caller)
    (tid : Nat) (now : Int) (filters : TaskFilters) (updates : TaskUpdates)
    (note fb : Option String) :
    (∀ t ∈ getTasks db c filters, t.organizationId = c.organizationId) ∧
    ((∀ t ∈ db, t.id = tid → t.organizationId ≠ c.organizationId) →
      getTaskById db c tid = .error ⟨"Task not found.", 404⟩ ∧
      updateTask db users c tid updates now = .error ⟨"Task not found.", 404⟩ ∧
      deleteTask db c tid now = .error ⟨"Task not found.", 404⟩ ∧
      acceptTask db c tid now = .error ⟨"Task not found.", 404⟩ ∧
      startTask db c tid now = .error ⟨"Task not found.", 404⟩ ∧
      submitTask db c tid note now = .error ⟨"Task not found.", 404⟩ ∧
      completeTask db c tid fb now = .error ⟨"Task not found.", 404⟩ ∧
      rejectTask db c tid fb now = .error ⟨"Task not found.", 404⟩ ∧
      applyResult db (updateTask db users c tid updates now) = db ∧
      applyResult db (deleteTask db c tid now) = db) := by
  constructor
  · intro t ht
    by_cases hadm : hasAdminPrivileges c = true
    · simp only [getTasks, hadm, if_true] at ht
      rw [List.mem_filter] at ht
      exact matchesListFilter_organizationId ht.2
    · rw [Bool.not_eq_true] at hadm
      simp only [getTasks, hadm, Bool.false_eq_true, if_false] at ht
      rw [List.mem_map] at ht
      obtain ⟨t0, ht0, rfl⟩ := ht
      rw [List.mem_filter] at ht0
      rw [employeeView_organizationId]
      exact matchesListFilter_organizationId ht0.2
  · intro h
    have hn : ∀ af, findOneTask db tid c.organizationId af = none :=
      fun af => findOneTask_eq_none_of_other_org db tid c.organizationId af h
    have hupd : updateTask db users c tid updates now =
        .error ⟨"Task not found.", 404⟩ := by
      simp [updateTask, hn]
    have hdel : deleteTask db c tid now = .error ⟨"Task not found.", 404⟩ := by
      simp [deleteTask, hn]
    refine ⟨?_, hupd, hdel, ?_, ?_, ?_, ?_, ?_, ?_, ?_⟩
    · simp [getTaskById, hn]
    · simp [acceptTask, hn]
    · simp [startTask, hn]
    · simp [submitTask, hn]
    · simp [completeTask, hn]
    · simp [rejectTask, hn]
    · rw [hupd]; rfl
    · rw [hdel]; rfl

/-- A task of a different organization used by the scoping witnesses. -/
def foreignTask : Task :=
  { id := 1, organizationId := 99, assignedTo := [7], status := .PENDING }

/-- Witness for C3: the caller of organization 10 cannot read or accept the
task of organization 99, and the list it gets back is empty. -/
theorem c3_org_scoping_witness :
    getTasks [foreignTask] sampleCaller {} = [] ∧
    getTaskById [foreignTask] sampleCaller 1 =
      .error ⟨"Task not found.", 404⟩ ∧
    acceptTask [foreignTask] sampleCaller 1 0 =
      .error ⟨"Task not found.", 404⟩ := by
  have h := c3_org_scoping [foreignTask] [] sampleCaller 1 0 {} {} none none
  have h2 := h.2 (by decide)
  exact ⟨by decide, h2.1, h2.2.2.2.1⟩

/-! ### C4 — role-based task visibility -/

/-- C4: a caller whose role is neither `ADMIN` nor `SUPER_ADMIN` only
receives tasks they are assigned to — each reduced to the caller's own
assignment view — and a `getTaskById` on a task not assigned to them fails
with `'Task not found.'`; an `ADMIN` or `SUPER_ADMIN` caller sees every
non-deleted task of their organization. -/
theorem c4_employee_task_visibility (db : List Task) (c : Caller)
    (filters : TaskFilters) (tid : Nat) :
    (c.role ≠ Role.ADMIN → c.role ≠ Role.SUPER_ADMIN →
      (∀ t ∈ getTasks db c filters, ∃ t0, t0 ∈ db ∧ c.userId ∈ t0.assignedTo ∧
        t = employeeView c.userId t0 ∧ ∀ u ∈ t.assignedTo, u = c.userId) ∧
      ((∀ t ∈ db, t.id = tid → c.userId ∉ t.assignedTo) →
        getTaskById db c tid = .error ⟨"Task not found.", 404⟩)) ∧
    (c.role = Role.ADMIN ∨ c.role = Role.SUPER_ADMIN →
      ∀ t, t ∈ getTasks db c {} ↔
        t ∈ db ∧ t.organizationId = c.organizationId ∧ t.isDeleted = false) := by
  constructor
  · intro h1 h2
    have hadm := hasAdminPrivileges_eq_false h1 h2
    constructor
    · intro t ht
      simp only [getTasks, hadm, Bool.false_eq_true, if_false] at ht
      rw [List.mem_map] at ht
      obtain ⟨t0, ht0, rfl⟩ := ht
      rw [List.mem_filter] at ht0
      refine ⟨t0, ht0.1, matchesListFilter_assigned hadm ht0.2, rfl, ?_⟩
      intro u hu
      rw [employeeView_assignedTo, List.mem_filter] at hu
      exact beq_iff_eq.mp hu.2
    · intro hnone
      have hfind := findOneTask_eq_none_of_not_assigned db tid
        c.organizationId c.userId hnone
      simp [getTaskById, hadm, hfind]
  · intro h t
    have hadm := hasAdminPrivileges_eq_true h
    simp only [getTasks, hadm, if_true]
    rw [List.mem_filter]
    simp [matchesListFilter, hadm, Bool.not_eq_true', and_assoc]

/-- Witness for C4: the employee of organization 10 sees only their own task
out of two, with `assignedTo` reduced to themselves, while an admin of the
same organization sees both. -/
theorem c4_employee_task_visibility_witness :
    getTasks
        [{ id := 1, organizationId := 10, assignedTo := [7, 8],
           employeeStatus := [{ employeeId := 7, status := .ACCEPTED }] },
         { id := 2, organizationId := 10, assignedTo := [8] }]
        sampleCaller {} =
      [{ id := 1, organizationId := 10, assignedTo := [7],
         employeeStatus := [{ employeeId := 7, status := .ACCEPTED }],
         myStatus := some .ACCEPTED }] ∧
    getTaskById
        [{ id := 2, organizationId := 10, assignedTo := [8] }] sampleCaller 2 =
      .error ⟨"Task not found.", 404⟩ := by
  constructor
  · decide
  · have h := c4_employee_task_visibility
      [{ id := 2, organizationId := 10, assignedTo := [8] }] sampleCaller {} 2
    exact (h.1 (by decide) (by decide)).2 (by decide)

/-! ### C9 — organization-scoped buckets with unique names -/

/-- C9: `getBuckets` returns exactly the non-deleted buckets of the given
organization, and `createBucket` fails with a 400 error exactly when a
non-deleted bucket of the same organization already carries the same name
compared case-insensitively — a matching name in a different organization
does not block creation. -/
theorem c9_bucket_scoping (db : List Bucket) (oid newId createdBy : Nat)
    (name : String) :
    (∀ b, b ∈ getBuckets db oid ↔
      b ∈ db ∧ b.organizationId = oid ∧ b.isDeleted = false) ∧
    ((∃ b ∈ db, b.organizationId = oid ∧ lowerStr b.name = lowerStr name ∧
        b.isDeleted = false) →
      createBucket db oid newId name createdBy =
        .error ⟨"Bucket with this name already exists.", 400⟩) ∧
    ((¬ ∃ b ∈ db, b.organizationId = oid ∧ lowerStr b.name = lowerStr name ∧
        b.isDeleted = false) →
      ∃ bucket, createBucket db oid newId name createdBy =
          .ok (bucket, db ++ [bucket]) ∧
        bucket.name = name ∧ bucket.organizationId = oid) := by
  have hdup : duplicateBucketName db oid name = true ↔
      ∃ b ∈ db, b.organizationId = oid ∧ lowerStr b.name = lowerStr name ∧
        b.isDeleted = false := by
    unfold duplicateBucketName
    rw [List.find?_isSome]
    simp [Bool.and_eq_true, beq_iff_eq, Bool.not_eq_true', and_assoc]
  refine ⟨?_, ?_, ?_⟩
  · intro b
    simp [getBuckets, List.mem_filter, Bool.and_eq_true, beq_iff_eq,
      Bool.not_eq_true', and_assoc]
  · intro h
    have := hdup.mpr h
    simp [createBucket, this]
  · intro h
    have hd : duplicateBucketName db oid name = false := by
      rw [Bool.eq_false_iff]
      intro hc
      exact h (hdup.mp hc)
    refine ⟨{ id := newId, organizationId := oid, name := name,
              createdBy := createdBy }, ?_, rfl, rfl⟩
    simp [createBucket, hd]

/-- Witness for C9: with bucket `"A"` in organization 10, creating `"a"` in
organization 10 is rejected as a duplicate while creating `"a"` in
organization 20 succeeds. -/
theorem c9_bucket_scoping_witness :
    createBucket [{ id := 1, organizationId := 10, name := "A" }] 10 2 "a" 0 =
      .error ⟨"Bucket with this name already exists.", 400⟩ ∧
    createBucket [{ id := 1, organizationId := 10, name := "A" }] 20 2 "a" 0 =
      .ok ({ id := 2, organizationId := 20, name := "a", createdBy := 0 },
        [{ id := 1, organizationId := 10, name := "A" },
         { id := 2, organizationId := 20, name := "a", createdBy := 0 }]) := by
  constructor
  · exact (c9_bucket_scoping [{ id := 1, organizationId := 10, name := "A" }]
      10 2 0 "a").2.1
      ⟨{ id := 1, organizationId := 10, name := "A" }, by decide⟩
  · rfl

end TaskMgmt
